import Mathlib

/-!
Verification of the booking-form validation logic of
`src/components/TicketBookingForm/TicketBookingForm.jsx`.

The validation core is the zod schema

  const schema = z.object({
    name: z.string().min(1, "Name is required"),
    email: z.string().email("Invalid email address"),
    phone: z.string().regex(/^\d{10}$/, "Phone number must be 10 digits"),
    tickets: z.number().min(1, "At least one ticket is required"),
    date: z.date().refine((val) => val instanceof Date && !isNaN(val), "Booking date is required"),
    time: z.date().refine((val) => val instanceof Date && !isNaN(val), "Show/travel time is required"),
    payment: z.enum(["Card", "UPI", "Net Banking", "Wallet"], "Please select a payment option"),
    seat: z.enum(["Window", "Aisle", "Center"], "Please select a seat preference"),
    specialRequests: z.string().optional(),
  });

applied to the form values through the react-hook-form zod resolver, which
turns a failed `safeParse` into a per-field error map keyed by field name,
keeping the first issue per field. We embed the runtime values a field can
hold as `JSValue`, each field parser with zod 3 semantics (default error
messages included), and the object-level parse as `safeParse`, which
collects the issues of every field and succeeds exactly when there are none.
-/

deriving instance DecidableEq for Except

namespace TicketBooking

/-- Model of the JavaScript runtime values a form field can hold: a string,
a finite number (modelled exactly as a rational), NaN, a boolean, a `Date`
whose timestamp is either a number or NaN (an "Invalid Date"), `null`, or
`undefined` (which also models an absent key). -/
inductive JSValue where
  | str (s : String)
  | num (q : ℚ)
  | nan
  | boolean (b : Bool)
  | jsDate (t : Option ℚ)
  | jsNull
  | undef
deriving DecidableEq, Repr

/-- zod's `getParsedType`: the type tag used in its default error messages. -/
def typeName : JSValue → String
  | .str _ => "string"
  | .num _ => "number"
  | .nan => "nan"
  | .boolean _ => "boolean"
  | .jsDate _ => "date"
  | .jsNull => "null"
  | .undef => "undefined"

/-- The raw form values handed to the resolver on submit: one `JSValue` per
schema key (`undef` models a missing field). -/
structure BookingInput where
  name : JSValue
  email : JSValue
  phone : JSValue
  tickets : JSValue
  date : JSValue
  time : JSValue
  payment : JSValue
  seat : JSValue
  specialRequests : JSValue
deriving DecidableEq, Repr

/-- The parsed output of a successful `schema.safeParse`: every required
field well-typed; `specialRequests` stays optional (`z.string().optional()`
passes `undefined` through unchanged, it does not substitute a default). -/
structure BookingRecord where
  name : String
  email : String
  phone : String
  tickets : ℚ
  date : ℚ
  time : ℚ
  payment : String
  seat : String
  specialRequests : Option String
deriving DecidableEq, Repr

/-- The error map the zod resolver hands back: field name to the message of
the first issue recorded for that field. -/
abbrev ErrorMap := List (String × String)

/-- zod's default message for an `invalid_type` issue: "Required" when the
value is `undefined`, otherwise "Expected ..., received ...". -/
def invalidTypeMsg (expected : String) (v : JSValue) : String :=
  match v with
  | .undef => "Required"
  | v => "Expected " ++ expected ++ ", received " ++ typeName v

/-- ASCII letter or digit, as matched by `[A-Z0-9]` under the `/i` flag. -/
def alnumChar (c : Char) : Bool := c.isAlpha || c.isDigit

/-- A character admitted anywhere in the local part of zod 3.23's email
regular expression: `[A-Z0-9_'+\-\.]` (case-insensitive). -/
def localChar (c : Char) : Bool :=
  alnumChar c || c = '_' || c = '\x27' || c = '+' || c = '-' || c = '.'

/-- A character admitted as the last character of the local part:
`[A-Z0-9_+-]` (case-insensitive). -/
def localEndChar (c : Char) : Bool :=
  alnumChar c || c = '_' || c = '+' || c = '-'

/-- A character admitted after the first character of a domain label:
`[A-Z0-9\-]` (case-insensitive). -/
def domainChar (c : Char) : Bool := alnumChar c || c = '-'

/-- A non-final domain label: `[A-Z0-9][A-Z0-9\-]*`. -/
def labelOk : List Char → Bool
  | [] => false
  | c :: rest => alnumChar c && rest.all domainChar

/-- The final domain label: `[A-Z]{2,}`. -/
def tldOk (l : List Char) : Bool := decide (2 ≤ l.length) && l.all Char.isAlpha

/-- Whether the character list contains two consecutive dots (the negative
lookahead `(?!.*\.\.)` of the email regular expression). -/
def hasDoubleDot : List Char → Bool
  | '.' :: '.' :: _ => true
  | _ :: rest => hasDoubleDot rest
  | [] => false

/-- Split a character list at every occurrence of the separator (empty
pieces kept), mirroring how the regular expression decomposes the domain. -/
def splitOnChar (sep : Char) : List Char → List Char → List (List Char)
  | [], acc => [acc.reverse]
  | c :: cs, acc =>
    if c = sep then acc.reverse :: splitOnChar sep cs []
    else splitOnChar sep cs (c :: acc)

/-- zod 3.23's email validation, the test `z.string().email()` performs:
`/^(?!\.)(?!.*\.\.)([A-Z0-9_'+\-\.]*)[A-Z0-9_+-]@([A-Z0-9][A-Z0-9\-]*\.)+[A-Z]{2,}$/i`.
Since neither side of the `@` may contain an `@`, a match decomposes the
string as a local part, one `@`, and a dot-separated domain whose final
label is purely alphabetic of length at least 2. -/
def emailCheck (s : String) : Bool :=
  let cs := s.toList
  (match cs with
   | '.' :: _ => false
   | _ => true) &&
  !hasDoubleDot cs &&
  (match splitOnChar '@' cs [] with
   | [loc, dom] =>
     (match loc.getLast? with
      | none => false
      | some c => loc.dropLast.all localChar && localEndChar c) &&
     (match (splitOnChar '.' dom []).getLast? with
      | none => false
      | some tld =>
        decide (2 ≤ (splitOnChar '.' dom []).length) &&
        (splitOnChar '.' dom []).dropLast.all labelOk &&
        tldOk tld)
   | _ => false)

/-- The phone rule `/^\d{10}$/`: exactly ten ASCII digits. -/
def phoneCheck (s : String) : Bool :=
  decide (s.toList.length = 10) && s.toList.all Char.isDigit

/-- `name: z.string().min(1, "Name is required")`. A non-string input fails
the string type check with zod's default message; a string shorter than 1
fails the min check with the custom message. -/
def parseName (v : JSValue) : Except String String :=
  match v with
  | .str s => if s.length < 1 then .error "Name is required" else .ok s
  | v => .error (invalidTypeMsg "string" v)

/-- `email: z.string().email("Invalid email address")`. -/
def parseEmail (v : JSValue) : Except String String :=
  match v with
  | .str s => if emailCheck s then .ok s else .error "Invalid email address"
  | v => .error (invalidTypeMsg "string" v)

/-- `phone: z.string().regex(/^\d{10}$/, "Phone number must be 10 digits")`. -/
def parsePhone (v : JSValue) : Except String String :=
  match v with
  | .str s => if phoneCheck s then .ok s else .error "Phone number must be 10 digits"
  | v => .error (invalidTypeMsg "string" v)

/-- `tickets: z.number().min(1, "At least one ticket is required")`.
`z.number()` admits any non-NaN number (integrality is not checked); the
inclusive `min(1)` check fails exactly when the value is below 1. -/
def parseTickets (v : JSValue) : Except String ℚ :=
  match v with
  | .num q => if q < 1 then .error "At least one ticket is required" else .ok q
  | v => .error (invalidTypeMsg "number" v)

/-- The predicate of the `.refine((val) => val instanceof Date && !isNaN(val), msg)`
calls on `date` and `time`. zod only runs a refinement after the base
`z.date()` parse succeeded, and a value accepted by `z.date()` is a `Date`
instance with a non-NaN timestamp, so on every value that reaches it the
predicate evaluates to true. -/
def dateRefine (_t : ℚ) : Bool := true

/-- `z.date().refine((val) => val instanceof Date && !isNaN(val), refineMsg)`.
A non-`Date` input fails the type check with zod's default message; a `Date`
holding NaN fails with zod's default `invalid_date` message "Invalid date";
both abort before the refinement, which therefore only sees valid dates. -/
def parseDateField (refineMsg : String) (v : JSValue) : Except String ℚ :=
  match v with
  | .jsDate (some t) => if dateRefine t then .ok t else .error refineMsg
  | .jsDate none => .error "Invalid date"
  | v => .error (invalidTypeMsg "date" v)

/-- The `date` field parser. -/
def parseDate : JSValue → Except String ℚ :=
  parseDateField "Booking date is required"

/-- The `time` field parser. -/
def parseTime : JSValue → Except String ℚ :=
  parseDateField "Show/travel time is required"

/-- The payment options of `z.enum(["Card", "UPI", "Net Banking", "Wallet"], ...)`. -/
def paymentValues : List String := ["Card", "UPI", "Net Banking", "Wallet"]

/-- The seat options of `z.enum(["Window", "Aisle", "Center"], ...)`. -/
def seatValues : List String := ["Window", "Aisle", "Center"]

/-- zod's rendering of an enum's options in its default messages
(`util.joinValues`): each option quoted, joined by " | ". -/
def joinValues (values : List String) : String :=
  String.intercalate " | " (values.map (fun s => "\x27" ++ s ++ "\x27"))

/-- zod's default message for an `invalid_enum_value` issue. -/
def invalidEnumMsg (values : List String) (received : String) : String :=
  "Invalid enum value. Expected " ++ joinValues values ++
    ", received \x27" ++ received ++ "\x27"

/-- `z.enum(values, "...")` with a bare string as second argument. zod 3's
`processCreateParams` destructures its parameter as an options object, so a
plain string contributes nothing: the custom message is silently dropped
and zod's default messages apply (the spec flags this as an open question).
A non-string input fails the type check; a string outside the options fails
with the default `invalid_enum_value` message. -/
def parseEnum (values : List String) (v : JSValue) : Except String String :=
  match v with
  | .str s =>
    if values.contains s then .ok s else .error (invalidEnumMsg values s)
  | .undef => .error "Required"
  | v => .error ("Expected " ++ joinValues values ++ ", received " ++ typeName v)

/-- The `payment` field parser. -/
def parsePayment : JSValue → Except String String := parseEnum paymentValues

/-- The `seat` field parser. -/
def parseSeat : JSValue → Except String String := parseEnum seatValues

/-- `specialRequests: z.string().optional()`: `undefined` (or an absent key)
passes through as `undefined`; a string passes unchanged; any other value
fails the string type check. No empty-string default is substituted. -/
def parseSpecialRequests (v : JSValue) : Except String (Option String) :=
  match v with
  | .undef => .ok none
  | .str s => .ok (some s)
  | v => .error (invalidTypeMsg "string" v)

/-- The contribution of one field to the resolver's error map: the field
name paired with its (single) issue message when its parse failed, nothing
when it succeeded. -/
def fieldErr {α : Type} (key : String) : Except String α → ErrorMap
  | .error m => [(key, m)]
  | .ok _ => []

/-- The error map `schema.safeParse` yields on the input, in schema key
order. `z.object` parses every key; it never stops at the first failing
field, so each failing field contributes its entry. -/
def errorsOf (i : BookingInput) : ErrorMap :=
  fieldErr "name" (parseName i.name) ++
  fieldErr "email" (parseEmail i.email) ++
  fieldErr "phone" (parsePhone i.phone) ++
  fieldErr "tickets" (parseTickets i.tickets) ++
  fieldErr "date" (parseDate i.date) ++
  fieldErr "time" (parseTime i.time) ++
  fieldErr "payment" (parsePayment i.payment) ++
  fieldErr "seat" (parseSeat i.seat) ++
  fieldErr "specialRequests" (parseSpecialRequests i.specialRequests)

/-- The record assembled from the per-field parse results. It is only ever
returned when every field parsed successfully (`errorsOf i = []`), so the
fallback constants after `getD` are never the value used. -/
def assembleRecord (i : BookingInput) : BookingRecord where
  name := (parseName i.name).toOption.getD ""
  email := (parseEmail i.email).toOption.getD ""
  phone := (parsePhone i.phone).toOption.getD ""
  tickets := (parseTickets i.tickets).toOption.getD 0
  date := (parseDate i.date).toOption.getD 0
  time := (parseTime i.time).toOption.getD 0
  payment := (parsePayment i.payment).toOption.getD ""
  seat := (parseSeat i.seat).toOption.getD ""
  specialRequests := (parseSpecialRequests i.specialRequests).toOption.getD none

/-- `schema.safeParse` as surfaced through the zod resolver: every field is
validated; if no field produced an issue the parsed record is returned,
otherwise the per-field error map. This is a total function — zod reports
all validation failures as data, never by throwing. -/
def safeParse (i : BookingInput) : Except ErrorMap BookingRecord :=
  if errorsOf i = [] then .ok (assembleRecord i) else .error (errorsOf i)

/-- The issue message of one field parse result, if any. -/
def errOf {α : Type} : Except String α → Option String
  | .error m => some m
  | .ok _ => none

/-- The parse outcome of a single named field of the input: `some m` when
the field named `key` fails with message `m`, `none` when it succeeds or
the name is not a schema key. -/
def fieldErrorOf (i : BookingInput) (key : String) : Option String :=
  if key = "name" then errOf (parseName i.name)
  else if key = "email" then errOf (parseEmail i.email)
  else if key = "phone" then errOf (parsePhone i.phone)
  else if key = "tickets" then errOf (parseTickets i.tickets)
  else if key = "date" then errOf (parseDate i.date)
  else if key = "time" then errOf (parseTime i.time)
  else if key = "payment" then errOf (parsePayment i.payment)
  else if key = "seat" then errOf (parseSeat i.seat)
  else if key = "specialRequests" then errOf (parseSpecialRequests i.specialRequests)
  else none

/-- A fully valid input, used as the base point of the concrete scenarios. -/
def okInput : BookingInput where
  name := .str "Asha Rao"
  email := .str "asha.rao@example.com"
  phone := .str "9876543210"
  tickets := .num 2
  date := .jsDate (some 1700000000000)
  time := .jsDate (some 1700003600000)
  payment := .str "Card"
  seat := .str "Window"
  specialRequests := .str "Vegetarian meal"

example : emailCheck "asha.rao@example.com" = true := by decide
example : emailCheck "not-an-email" = false := by decide
example : phoneCheck "9876543210" = true := by decide
example : errorsOf okInput = [] := by decide

/-- An optional string as the runtime value the form hands over: `undefined`
when absent, the string itself otherwise. -/
def jsOfOptStr : Option String → JSValue
  | none => .undef
  | some s => .str s

/-- A non-empty string passes the `min(1)` length check. -/
theorem not_length_lt_one {s : String} (h : s ≠ "") : ¬ s.length < 1 := by
  have hz : s.length ≠ 0 := by
    intro hz
    apply h
    cases s with
    | mk data =>
      simp only [String.length] at hz
      have hd : data = [] := List.length_eq_zero.mp hz
      rw [hd]
  omega

/-- Membership in a single field's error-map contribution characterised. -/
theorem mem_fieldErr {α : Type} {key k m : String} {r : Except String α} :
    (k, m) ∈ fieldErr key r ↔ k = key ∧ r = .error m := by
  cases r with
  | error e =>
    simp only [fieldErr, List.mem_singleton, Prod.mk.injEq, Except.error.injEq]
    exact ⟨fun ⟨hk, hm⟩ => ⟨hk, hm.symm⟩, fun ⟨hk, hm⟩ => ⟨hk, hm.symm⟩⟩
  | ok a =>
    simp [fieldErr]

/-- If some field contributed an entry, `safeParse` reports the error map. -/
theorem safeParse_error_of_mem {i : BookingInput} {k m : String}
    (h : (k, m) ∈ errorsOf i) : safeParse i = .error (errorsOf i) := by
  have hne : errorsOf i ≠ [] := List.ne_nil_of_mem h
  simp [safeParse, hne]

/-- A single-field error equation turned into error-map membership, for each
schema key in turn. -/
theorem mem_errorsOf_name {i : BookingInput} {m : String}
    (h : parseName i.name = .error m) : ("name", m) ∈ errorsOf i := by
  simp [errorsOf, List.mem_append, mem_fieldErr, h]

theorem mem_errorsOf_email {i : BookingInput} {m : String}
    (h : parseEmail i.email = .error m) : ("email", m) ∈ errorsOf i := by
  simp [errorsOf, List.mem_append, mem_fieldErr, h]

theorem mem_errorsOf_phone {i : BookingInput} {m : String}
    (h : parsePhone i.phone = .error m) : ("phone", m) ∈ errorsOf i := by
  simp [errorsOf, List.mem_append, mem_fieldErr, h]

theorem mem_errorsOf_tickets {i : BookingInput} {m : String}
    (h : parseTickets i.tickets = .error m) : ("tickets", m) ∈ errorsOf i := by
  simp [errorsOf, List.mem_append, mem_fieldErr, h]

theorem mem_errorsOf_date {i : BookingInput} {m : String}
    (h : parseDate i.date = .error m) : ("date", m) ∈ errorsOf i := by
  simp [errorsOf, List.mem_append, mem_fieldErr, h]

theorem mem_errorsOf_time {i : BookingInput} {m : String}
    (h : parseTime i.time = .error m) : ("time", m) ∈ errorsOf i := by
  simp [errorsOf, List.mem_append, mem_fieldErr, h]

theorem mem_errorsOf_payment {i : BookingInput} {m : String}
    (h : parsePayment i.payment = .error m) : ("payment", m) ∈ errorsOf i := by
  simp [errorsOf, List.mem_append, mem_fieldErr, h]

theorem mem_errorsOf_seat {i : BookingInput} {m : String}
    (h : parseSeat i.seat = .error m) : ("seat", m) ∈ errorsOf i := by
  simp [errorsOf, List.mem_append, mem_fieldErr, h]

theorem mem_errorsOf_specialRequests {i : BookingInput} {m : String}
    (h : parseSpecialRequests i.specialRequests = .error m) :
    ("specialRequests", m) ∈ errorsOf i := by
  simp [errorsOf, List.mem_append, mem_fieldErr, h]

/-- The central success lemma: on an input whose fields satisfy the schema
rules, every field parser succeeds, no issue is recorded, and `safeParse`
returns the record assembled from the fields unchanged. -/
theorem safeParse_of_valid_fields (nm em ph pay st : String) (tq d tm : ℚ)
    (sr : Option String)
    (hnm : nm ≠ "") (hem : emailCheck em = true) (hph : phoneCheck ph = true)
    (htq : 1 ≤ tq)
    (hpay : pay ∈ paymentValues) (hst : st ∈ seatValues) :
    safeParse ⟨.str nm, .str em, .str ph, .num tq, .jsDate (some d),
        .jsDate (some tm), .str pay, .str st, jsOfOptStr sr⟩ =
      .ok ⟨nm, em, ph, tq, d, tm, pay, st, sr⟩ ∧
    errorsOf ⟨.str nm, .str em, .str ph, .num tq, .jsDate (some d),
        .jsDate (some tm), .str pay, .str st, jsOfOptStr sr⟩ = [] := by
  have h1 : parseName (.str nm) = .ok nm := by
    simp [parseName, not_length_lt_one hnm]
  have h2 : parseEmail (.str em) = .ok em := by
    simp [parseEmail, hem]
  have h3 : parsePhone (.str ph) = .ok ph := by
    simp [parsePhone, hph]
  have h4 : parseTickets (.num tq) = .ok tq := by
    simp [parseTickets, not_lt.mpr htq]
  have h5 : parseDate (.jsDate (some d)) = .ok d := by
    simp [parseDate, parseDateField, dateRefine]
  have h6 : parseTime (.jsDate (some tm)) = .ok tm := by
    simp [parseTime, parseDateField, dateRefine]
  have h7 : parsePayment (.str pay) = .ok pay := by
    simp [parsePayment, parseEnum, hpay]
  have h8 : parseSeat (.str st) = .ok st := by
    simp [parseSeat, parseEnum, hst]
  have h9 : parseSpecialRequests (jsOfOptStr sr) = .ok sr := by
    cases sr <;> simp [parseSpecialRequests, jsOfOptStr]
  have hnil : errorsOf ⟨.str nm, .str em, .str ph, .num tq, .jsDate (some d),
      .jsDate (some tm), .str pay, .str st, jsOfOptStr sr⟩ = [] := by
    simp [errorsOf, fieldErr, h1, h2, h3, h4, h5, h6, h7, h8, h9]
  refine ⟨?_, hnil⟩
  simp [safeParse, hnil, assembleRecord, Except.toOption, Option.getD,
    h1, h2, h3, h4, h5, h6, h7, h8, h9]

/-- A recorded issue message pins down the parse result. -/
theorem errOf_eq_some {α : Type} {r : Except String α} {m : String}
    (h : errOf r = some m) : r = .error m := by
  cases r with
  | error e =>
    simp only [errOf, Option.some.injEq] at h
    rw [h]
  | ok a =>
    simp [errOf] at h

/-- The error map holds exactly the entries of the failing fields: `(k, m)`
appears in it precisely when the schema field named `k` fails with the
message `m`. -/
theorem mem_errorsOf_iff (i : BookingInput) (k m : String) :
    (k, m) ∈ errorsOf i ↔ fieldErrorOf i k = some m := by
  constructor
  · intro h
    simp only [errorsOf, List.mem_append, mem_fieldErr] at h
    rcases h with ((((((((⟨rfl, hp⟩ | ⟨rfl, hp⟩) | ⟨rfl, hp⟩) | ⟨rfl, hp⟩) |
      ⟨rfl, hp⟩) | ⟨rfl, hp⟩) | ⟨rfl, hp⟩) | ⟨rfl, hp⟩) | ⟨rfl, hp⟩) <;>
      simp [fieldErrorOf, errOf, hp]
  · intro h
    simp only [fieldErrorOf] at h
    split_ifs at h with h1 h2 h3 h4 h5 h6 h7 h8 h9
    · subst h1; exact mem_errorsOf_name (errOf_eq_some h)
    · subst h2; exact mem_errorsOf_email (errOf_eq_some h)
    · subst h3; exact mem_errorsOf_phone (errOf_eq_some h)
    · subst h4; exact mem_errorsOf_tickets (errOf_eq_some h)
    · subst h5; exact mem_errorsOf_date (errOf_eq_some h)
    · subst h6; exact mem_errorsOf_time (errOf_eq_some h)
    · subst h7; exact mem_errorsOf_payment (errOf_eq_some h)
    · subst h8; exact mem_errorsOf_seat (errOf_eq_some h)
    · subst h9; exact mem_errorsOf_specialRequests (errOf_eq_some h)

/-- Claim C1: a BookingInput whose fields all satisfy the rules of spec §3
(name non-empty, email matching the schema's email rule, phone exactly ten
digits, tickets an integer at least 1, date and time valid non-null dates,
payment and seat members of their enums) is accepted: `safeParse` returns
the normalized input as the BookingRecord and the error map is empty. -/
theorem schema_accepts_valid_input (nm em ph pay st : String) (tq d tm : ℚ)
    (sr : Option String)
    (hnm : nm ≠ "") (hem : emailCheck em = true) (hph : phoneCheck ph = true)
    (htq : 1 ≤ tq) (hti : tq.den = 1)
    (hpay : pay ∈ paymentValues) (hst : st ∈ seatValues) :
    safeParse ⟨.str nm, .str em, .str ph, .num tq, .jsDate (some d),
        .jsDate (some tm), .str pay, .str st, jsOfOptStr sr⟩ =
      .ok ⟨nm, em, ph, tq, d, tm, pay, st, sr⟩ ∧
    errorsOf ⟨.str nm, .str em, .str ph, .num tq, .jsDate (some d),
        .jsDate (some tm), .str pay, .str st, jsOfOptStr sr⟩ = [] :=
  safeParse_of_valid_fields nm em ph pay st tq d tm sr hnm hem hph htq hpay hst

/-- Witness for claim C1 at a concrete fully valid input. -/
theorem schema_accepts_valid_input_witness :
    safeParse ⟨.str "Asha Rao", .str "asha.rao@example.com", .str "9876543210",
        .num 2, .jsDate (some 1700000000000), .jsDate (some 1700003600000),
        .str "Card", .str "Window", jsOfOptStr (some "Vegetarian meal")⟩ =
      .ok ⟨"Asha Rao", "asha.rao@example.com", "9876543210", 2, 1700000000000,
        1700003600000, "Card", "Window", some "Vegetarian meal"⟩ ∧
    errorsOf ⟨.str "Asha Rao", .str "asha.rao@example.com", .str "9876543210",
        .num 2, .jsDate (some 1700000000000), .jsDate (some 1700003600000),
        .str "Card", .str "Window", jsOfOptStr (some "Vegetarian meal")⟩ = [] :=
  schema_accepts_valid_input "Asha Rao" "asha.rao@example.com" "9876543210"
    "Card" "Window" 2 1700000000000 1700003600000 (some "Vegetarian meal")
    (by decide) (by decide) (by decide) (by decide) (by decide) (by decide)
    (by decide)

/-- Claim C2: validation does not stop at the first failing field — the
error map contains an entry for every violated field (and only those),
each with that field's issue message, and any violation makes `safeParse`
return the full error map. -/
theorem errorMap_reports_every_violated_field (i : BookingInput)
    (k m : String) :
    ((k, m) ∈ errorsOf i ↔ fieldErrorOf i k = some m) ∧
    (fieldErrorOf i k = some m → safeParse i = .error (errorsOf i)) :=
  ⟨mem_errorsOf_iff i k m,
   fun h => safeParse_error_of_mem ((mem_errorsOf_iff i k m).mpr h)⟩

/-- An input violating two field rules at once (empty name, short phone). -/
def c2Input : BookingInput := { okInput with name := .str "", phone := .str "123" }

/-- Witness for claim C2: on an input violating both the name and the phone
rule, the name entry is present in the reported error map. -/
theorem errorMap_reports_every_violated_field_witness :
    ("name", "Name is required") ∈ errorsOf c2Input ∧
    safeParse c2Input = .error (errorsOf c2Input) :=
  ⟨(errorMap_reports_every_violated_field c2Input "name" "Name is required").1.mpr
      (by decide),
   (errorMap_reports_every_violated_field c2Input "name" "Name is required").2
      (by decide)⟩

/-- The fully valid input with `specialRequests` absent. -/
def c3Input : BookingInput := { okInput with specialRequests := .undef }

/-- The record `safeParse` actually produces on `c3Input`. -/
def c3Rec : BookingRecord :=
  ⟨"Asha Rao", "asha.rao@example.com", "9876543210", 2, 1700000000000,
    1700003600000, "Card", "Window", none⟩

/-- Claim C3 counterexample: with every required field valid and
`specialRequests` absent, validation succeeds but the record's
`specialRequests` is absent (`undefined`), not the empty string:
`z.string().optional()` passes `undefined` through and substitutes no
default. -/
theorem specialRequests_not_defaulted_cex :
    safeParse c3Input = .ok c3Rec ∧ c3Rec.specialRequests ≠ some "" := by
  decide

/-- Claim C3 (amended): for every BookingInput whose required fields are
all valid and whose `specialRequests` is absent, validation succeeds and
the resulting record carries `specialRequests` as absent (`undefined`); no
empty-string default is applied. -/
theorem specialRequests_absent_passes (nm em ph pay st : String)
    (tq d tm : ℚ)
    (hnm : nm ≠ "") (hem : emailCheck em = true) (hph : phoneCheck ph = true)
    (htq : 1 ≤ tq) (hpay : pay ∈ paymentValues) (hst : st ∈ seatValues) :
    safeParse ⟨.str nm, .str em, .str ph, .num tq, .jsDate (some d),
        .jsDate (some tm), .str pay, .str st, .undef⟩ =
      .ok ⟨nm, em, ph, tq, d, tm, pay, st, none⟩ :=
  (safeParse_of_valid_fields nm em ph pay st tq d tm none
    hnm hem hph htq hpay hst).1

/-- Witness for claim C3 (amended) at a concrete input. -/
theorem specialRequests_absent_passes_witness :
    safeParse ⟨.str "Ravi", .str "ravi@mail.co", .str "0123456789", .num 1,
        .jsDate (some 0), .jsDate (some 0), .str "UPI", .str "Aisle",
        .undef⟩ =
      .ok ⟨"Ravi", "ravi@mail.co", "0123456789", 1, 0, 0, "UPI", "Aisle",
        none⟩ :=
  specialRequests_absent_passes "Ravi" "ravi@mail.co" "0123456789" "UPI"
    "Aisle" 1 0 0 (by decide) (by decide) (by decide) (by decide) (by decide)
    (by decide)

/-- The rational 3/2, i.e. the JavaScript number 1.5 (exactly representable
as a double). -/
def threeHalves : ℚ := ⟨3, 2, by decide, by decide⟩

/-- The fully valid input with tickets = 1.5. -/
def c4Input : BookingInput := { okInput with tickets := .num threeHalves }

/-- Claim C4 counterexample: tickets = 1.5, a non-integer at least 1, is
accepted — `z.number().min(1)` checks only the lower bound, never
integrality — where the claim requires a failure with the tickets error. -/
theorem nonInteger_tickets_accepted_cex :
    safeParse c4Input =
      .ok ⟨"Asha Rao", "asha.rao@example.com", "9876543210", threeHalves,
        1700000000000, 1700003600000, "Card", "Window",
        some "Vegetarian meal"⟩ ∧
    errorsOf c4Input = [] := by decide

/-- Claim C4 (amended): a tickets number below 1 is rejected with exactly
the entry {tickets: "At least one ticket is required"}, while any number at
least 1 — integer or not — passes the tickets rule. -/
theorem tickets_min_check (i : BookingInput) (q : ℚ)
    (hq : i.tickets = .num q) :
    (q < 1 → safeParse i = .error (errorsOf i) ∧
      ("tickets", "At least one ticket is required") ∈ errorsOf i) ∧
    (1 ≤ q → parseTickets i.tickets = .ok q) := by
  constructor
  · intro hlt
    have hp : parseTickets i.tickets =
        .error "At least one ticket is required" := by
      rw [hq]
      simp [parseTickets, hlt]
    have hmem := mem_errorsOf_tickets hp
    exact ⟨safeParse_error_of_mem hmem, hmem⟩
  · intro hge
    rw [hq]
    simp [parseTickets, not_lt.mpr hge]

/-- The fully valid input with tickets = 0. -/
def c4wInput : BookingInput := { okInput with tickets := .num 0 }

/-- Witness for claim C4 (amended), at tickets = 0. -/
theorem tickets_min_check_witness :
    safeParse c4wInput = .error (errorsOf c4wInput) ∧
    ("tickets", "At least one ticket is required") ∈ errorsOf c4wInput :=
  (tickets_min_check c4wInput 0 rfl).1 (by decide)

/-- The fully valid input with payment = "Crypto". -/
def c5Input : BookingInput := { okInput with payment := .str "Crypto" }

/-- Claim C5 counterexample: payment = "Crypto" does fail validation, but
the reported message is zod's default invalid-enum-value message, not the
custom "Please select a payment option" — `z.enum(values, "...")` with a
bare string as second argument silently drops the message. -/
theorem payment_custom_message_dropped_cex :
    safeParse c5Input = .error (errorsOf c5Input) ∧
    ("payment", "Please select a payment option") ∉ errorsOf c5Input ∧
    ("payment", invalidEnumMsg paymentValues "Crypto") ∈ errorsOf c5Input := by
  decide

/-- Claim C5 (amended): a payment string outside {Card, UPI, Net Banking,
Wallet} is rejected with an entry keyed "payment" carrying zod's default
invalid-enum-value message (the custom message being dropped), and a seat
string outside {Window, Aisle, Center} is likewise rejected with the
default message keyed "seat". -/
theorem enum_rejects_with_default_message (i : BookingInput) :
    (∀ s, i.payment = .str s → paymentValues.contains s = false →
      safeParse i = .error (errorsOf i) ∧
      ("payment", invalidEnumMsg paymentValues s) ∈ errorsOf i) ∧
    (∀ s, i.seat = .str s → seatValues.contains s = false →
      safeParse i = .error (errorsOf i) ∧
      ("seat", invalidEnumMsg seatValues s) ∈ errorsOf i) := by
  constructor
  · intro s hs hns
    have hno : s ∉ paymentValues := by simpa using hns
    have hp : parsePayment i.payment =
        .error (invalidEnumMsg paymentValues s) := by
      rw [hs]
      simp [parsePayment, parseEnum, hno]
    have hmem := mem_errorsOf_payment hp
    exact ⟨safeParse_error_of_mem hmem, hmem⟩
  · intro s hs hns
    have hno : s ∉ seatValues := by simpa using hns
    have hp : parseSeat i.seat = .error (invalidEnumMsg seatValues s) := by
      rw [hs]
      simp [parseSeat, parseEnum, hno]
    have hmem := mem_errorsOf_seat hp
    exact ⟨safeParse_error_of_mem hmem, hmem⟩

/-- Witness for claim C5 (amended), at payment = "Crypto". -/
theorem enum_rejects_with_default_message_witness :
    safeParse c5Input = .error (errorsOf c5Input) ∧
    ("payment", invalidEnumMsg paymentValues "Crypto") ∈ errorsOf c5Input :=
  (enum_rejects_with_default_message c5Input).1 "Crypto" rfl (by decide)

/-- The fully valid input with date = null. -/
def c6Input : BookingInput := { okInput with date := .jsNull }

/-- Claim C6 counterexample: a null date fails validation, but with zod's
default type message "Expected date, received null", never "Booking date is
required" — the refinement carrying that custom message runs only on values
the base `z.date()` has already accepted, so its message is unreachable. -/
theorem date_message_cex :
    safeParse c6Input = .error (errorsOf c6Input) ∧
    ("date", "Booking date is required") ∉ errorsOf c6Input ∧
    ("date", "Expected date, received null") ∈ errorsOf c6Input := by
  decide

/-- Claim C6 (amended): a null date is rejected with the entry
{date: "Expected date, received null"}, an unparsable date (NaN timestamp)
with {date: "Invalid date"}, a missing date with {date: "Required"}, and
symmetrically for time; a valid date always passes the date field, so the
refinement messages "Booking date is required" and "Show/travel time is
required" never occur. -/
theorem date_time_invalid_rejected (i : BookingInput) :
    (i.date = .jsNull → safeParse i = .error (errorsOf i) ∧
      ("date", "Expected date, received null") ∈ errorsOf i) ∧
    (i.date = .jsDate none → safeParse i = .error (errorsOf i) ∧
      ("date", "Invalid date") ∈ errorsOf i) ∧
    (i.date = .undef → safeParse i = .error (errorsOf i) ∧
      ("date", "Required") ∈ errorsOf i) ∧
    (i.time = .jsNull → safeParse i = .error (errorsOf i) ∧
      ("time", "Expected date, received null") ∈ errorsOf i) ∧
    (i.time = .jsDate none → safeParse i = .error (errorsOf i) ∧
      ("time", "Invalid date") ∈ errorsOf i) ∧
    (∀ t, i.date = .jsDate (some t) → parseDate i.date = .ok t) := by
  refine ⟨?_, ?_, ?_, ?_, ?_, ?_⟩
  · intro h
    have hp : parseDate i.date = .error "Expected date, received null" := by
      rw [h]
      decide
    have hmem := mem_errorsOf_date hp
    exact ⟨safeParse_error_of_mem hmem, hmem⟩
  · intro h
    have hp : parseDate i.date = .error "Invalid date" := by
      rw [h]
      decide
    have hmem := mem_errorsOf_date hp
    exact ⟨safeParse_error_of_mem hmem, hmem⟩
  · intro h
    have hp : parseDate i.date = .error "Required" := by
      rw [h]
      decide
    have hmem := mem_errorsOf_date hp
    exact ⟨safeParse_error_of_mem hmem, hmem⟩
  · intro h
    have hp : parseTime i.time = .error "Expected date, received null" := by
      rw [h]
      decide
    have hmem := mem_errorsOf_time hp
    exact ⟨safeParse_error_of_mem hmem, hmem⟩
  · intro h
    have hp : parseTime i.time = .error "Invalid date" := by
      rw [h]
      decide
    have hmem := mem_errorsOf_time hp
    exact ⟨safeParse_error_of_mem hmem, hmem⟩
  · intro t h
    rw [h]
    simp [parseDate, parseDateField, dateRefine]

/-- Witness for claim C6 (amended), at date = null. -/
theorem date_time_invalid_rejected_witness :
    safeParse c6Input = .error (errorsOf c6Input) ∧
    ("date", "Expected date, received null") ∈ errorsOf c6Input :=
  (date_time_invalid_rejected c6Input).1 rfl

/-- Claim C7: validation is total — for every input, however malformed, it
returns either a success carrying a BookingRecord or a failure carrying an
ErrorMap, never an exception; failures are pure data. -/
theorem safeParse_total (i : BookingInput) :
    (∃ r, safeParse i = .ok r) ∨ (∃ e, safeParse i = .error e) := by
  cases h : safeParse i with
  | ok r => exact Or.inl ⟨r, rfl⟩
  | error e => exact Or.inr ⟨e, rfl⟩

/-- Claim C8: validation is deterministic and idempotent — it is a pure
function of the input, with no state or I/O, so validating the same input
twice yields identical results (same record or same error map). -/
theorem safeParse_deterministic (i : BookingInput) :
    safeParse i = safeParse i ∧ errorsOf i = errorsOf i :=
  ⟨rfl, rfl⟩

/-- Claim C9: the schema imposes no upper bound on tickets — any number at
least 1, including values beyond the UI's preset 1–10 such as 1000, is
accepted when the other fields are valid. -/
theorem no_upper_ticket_bound (nm em ph pay st : String) (q d tm : ℚ)
    (sr : Option String)
    (hnm : nm ≠ "") (hem : emailCheck em = true) (hph : phoneCheck ph = true)
    (hq : 1 ≤ q) (hpay : pay ∈ paymentValues) (hst : st ∈ seatValues) :
    safeParse ⟨.str nm, .str em, .str ph, .num q, .jsDate (some d),
        .jsDate (some tm), .str pay, .str st, jsOfOptStr sr⟩ =
      .ok ⟨nm, em, ph, q, d, tm, pay, st, sr⟩ :=
  (safeParse_of_valid_fields nm em ph pay st q d tm sr
    hnm hem hph hq hpay hst).1

/-- Witness for claim C9, at tickets = 1000. -/
theorem no_upper_ticket_bound_witness :
    safeParse ⟨.str "Meera", .str "meera@example.org", .str "5551234567",
        .num 1000, .jsDate (some 42), .jsDate (some 7), .str "Wallet",
        .str "Center", jsOfOptStr none⟩ =
      .ok ⟨"Meera", "meera@example.org", "5551234567", 1000, 42, 7, "Wallet",
        "Center", none⟩ :=
  no_upper_ticket_bound "Meera" "meera@example.org" "5551234567" "Wallet"
    "Center" 1000 42 7 none (by decide) (by decide) (by decide) (by decide)
    (by decide) (by decide)

/-- Claim C10: the name rule checks only that the string has length at
least 1, so an otherwise valid input whose name consists solely of
whitespace is accepted and the whitespace-only name appears unchanged in
the record. -/
theorem whitespace_name_accepted (nm em ph pay st : String) (tq d tm : ℚ)
    (sr : Option String)
    (hnm : nm ≠ "") (hws : nm.toList.all Char.isWhitespace = true)
    (hem : emailCheck em = true) (hph : phoneCheck ph = true)
    (htq : 1 ≤ tq) (hpay : pay ∈ paymentValues) (hst : st ∈ seatValues) :
    safeParse ⟨.str nm, .str em, .str ph, .num tq, .jsDate (some d),
        .jsDate (some tm), .str pay, .str st, jsOfOptStr sr⟩ =
      .ok ⟨nm, em, ph, tq, d, tm, pay, st, sr⟩ :=
  (safeParse_of_valid_fields nm em ph pay st tq d tm sr
    hnm hem hph htq hpay hst).1

/-- Witness for claim C10, at name = " " (a single space). -/
theorem whitespace_name_accepted_witness :
    safeParse ⟨.str " ", .str "solo@space.in", .str "9998887776", .num 3,
        .jsDate (some 5), .jsDate (some 6), .str "Net Banking", .str "Aisle",
        jsOfOptStr none⟩ =
      .ok ⟨" ", "solo@space.in", "9998887776", 3, 5, 6, "Net Banking",
        "Aisle", none⟩ :=
  whitespace_name_accepted " " "solo@space.in" "9998887776" "Net Banking"
    "Aisle" 3 5 6 none (by decide) (by decide) (by decide) (by decide)
    (by decide) (by decide) (by decide)

end TicketBooking
